import Mathlib

/-!
Verification of the `tron-tx-decoder` decoding core (`src/decoder.js`).

The JavaScript source is shallowly embedded: JavaScript strings become Lean
`String`s (operated on through their `List Char` representation), byte buffers
become `List Nat` with each entry below 256, `undefined`/`null`-able fields
become `Option`s, and thrown exceptions become `Except` errors.  The external
ABI codec (`ethers.utils.defaultAbiCoder.decode`) is an opaque parameter of the
embedded functions: theorems either hold for every codec or make explicit which
arguments the codec is applied to.  The keccak-256 hash used by
`ethers.utils.keccak256` is implemented in full so that selector fixtures can
be checked by evaluation.
-/

set_option maxRecDepth 20000

namespace TronTxDecoder

/-! ## Generic JavaScript string helpers -/

/-- Lowercase hexadecimal digit character, as produced by
`Number.prototype.toString(16)`. -/
def hexDigitChar (n : Nat) : Char :=
  if n < 10 then Char.ofNat (48 + n) else Char.ofNat (87 + n)

/-- Models `('0' + (byte & 0xFF).toString(16)).slice(-2)`: a byte rendered as
exactly two lowercase hex characters. -/
def byteHexChars (b : Nat) : List Char :=
  [hexDigitChar (b / 16 % 16), hexDigitChar (b % 16)]

/-- Lowercase hex rendering of a byte list. -/
def hexCharsOfBytes (bs : List Nat) : List Char :=
  (bs.map byteHexChars).flatten

/-- True for the characters accepted by a hexadecimal digit position. -/
def isHexDigitChar (c : Char) : Bool :=
  (48 ≤ c.toNat && c.toNat ≤ 57) || (97 ≤ c.toNat && c.toNat ≤ 102) ||
    (65 ≤ c.toNat && c.toNat ≤ 70)

/-- Numeric value of a hexadecimal digit character. -/
def hexDigitVal (c : Char) : Nat :=
  if c.toNat ≤ 57 then c.toNat - 48
  else if c.toNat ≤ 70 then c.toNat - 55
  else c.toNat - 87

/-- Models `Buffer.from(s, 'hex')`: parses two hex characters per byte,
stopping at the first invalid pair and dropping an odd trailing character. -/
def bufferFromHex : List Char → List Nat
  | a :: b :: rest =>
    if isHexDigitChar a && isHexDigitChar b then
      (hexDigitVal a * 16 + hexDigitVal b) :: bufferFromHex rest
    else []
  | _ => []

/-- Boolean list-prefix test. -/
def listIsPrefix : List Char → List Char → Bool
  | [], _ => true
  | _ :: _, [] => false
  | a :: as, b :: bs => a == b && listIsPrefix as bs

/-- Boolean list-infix test (`pat` occurs somewhere in `l`). -/
def listHasInfix (pat : List Char) : List Char → Bool
  | [] => listIsPrefix pat []
  | c :: rest => listIsPrefix pat (c :: rest) || listHasInfix pat rest

/-- Models `s.includes('0x')`: substring containment anywhere, not a prefix
test. -/
def jsIncludes0x (s : String) : Bool :=
  listHasInfix ['0', 'x'] s.data

/-- Models `s.replace(/^0x/, '')`. -/
def jsStrip0x (s : String) : String :=
  match s.data with
  | '0' :: 'x' :: rest => String.mk rest
  | _ => s

/-- Models the JavaScript coercion `name || null`: the empty string (and an
absent value) collapse to `null` (`none`), every other string survives. -/
def jsFalsyToNull : Option String → Option String
  | some s => if s = "" then none else some s
  | none => none

/-- Models JavaScript string coercion of a string-or-null value, as it happens
in `methodName + '('`: `null` prints as `"null"`. -/
def jsNullToStr : Option String → String
  | none => "null"
  | some s => s

/-- Splits a character list in chunks of two, the way the loop
`for (i = 0; i < l; i += 2) ... substr(i, 2)` walks a string; a trailing odd
chunk has one character. -/
def chunk2 : List Char → List (List Char)
  | [] => []
  | [a] => [[a]]
  | a :: b :: rest => [a, b] :: chunk2 rest

/-- JavaScript whitespace characters skipped by `parseInt`. -/
def jsWhitespaceChar (c : Char) : Bool :=
  c == ' ' || c == '\t' || c == '\n' || c == '\r' || c == '\x0b' || c == '\x0c'

/-- Models `parseInt(s, 16)` on a short chunk: skip whitespace, read an
optional sign and an optional `0x`/`0X` prefix, then the longest run of hex
digits; `none` models the `NaN` result when no digit is found. -/
def jsParseIntHex (cs : List Char) : Option Int :=
  let cs1 := cs.dropWhile jsWhitespaceChar
  let signed : Int × List Char :=
    match cs1 with
    | '-' :: rest => (-1, rest)
    | '+' :: rest => (1, rest)
    | _ => (1, cs1)
  let body : List Char :=
    match signed.2 with
    | '0' :: 'x' :: rest => rest
    | '0' :: 'X' :: rest => rest
    | _ => signed.2
  let digits := body.takeWhile isHexDigitChar
  if digits.isEmpty then none
  else some (signed.1 * (Int.ofNat (digits.foldl (fun acc c => acc * 16 + hexDigitVal c) 0)))

/-- Models `String.fromCharCode(v)` where `v` may be `NaN`: `ToUint16` maps
`NaN` to 0 and any integer to its value modulo 2^16. -/
def jsFromCharCode : Option Int → Nat
  | none => 0
  | some i => (i % 65536).toNat

/-- Models the degraded-path loop of `decodeResultFromData`: the string is read
two characters at a time, each chunk goes through `parseInt(chunk, 16)` and
`String.fromCharCode`. -/
def jsHexPairsToString (s : String) : String :=
  String.mk ((chunk2 s.data).map (fun cs => Char.ofNat (jsFromCharCode (jsParseIntHex cs))))

/-! ## UTF-8 encoding and decoding

`Buffer.from(string)` encodes UTF-8; `buffer.toString('utf8')` decodes it,
emitting U+FFFD for malformed sequences. -/

/-- UTF-8 encoding of one code point. -/
def utf8EncodeChar (n : Nat) : List Nat :=
  if n < 0x80 then [n]
  else if n < 0x800 then [0xC0 ||| (n >>> 6), 0x80 ||| (n &&& 0x3F)]
  else if n < 0x10000 then
    [0xE0 ||| (n >>> 12), 0x80 ||| ((n >>> 6) &&& 0x3F), 0x80 ||| (n &&& 0x3F)]
  else
    [0xF0 ||| (n >>> 18), 0x80 ||| ((n >>> 12) &&& 0x3F),
      0x80 ||| ((n >>> 6) &&& 0x3F), 0x80 ||| (n &&& 0x3F)]

/-- Models `Buffer.from(s)` (UTF-8 bytes of a string). -/
def utf8Encode (s : String) : List Nat :=
  (s.data.map (fun c => utf8EncodeChar c.toNat)).flatten

/-- True for UTF-8 continuation bytes. -/
def utf8Cont (b : Nat) : Bool :=
  0x80 ≤ b && b < 0xC0

/-- Worker for `utf8Decode`, structurally recursive on a fuel argument so
that it evaluates inside the kernel; every step consumes at least one byte,
so fuel equal to the byte count (supplied by the wrapper) is never
exhausted. -/
def utf8DecodeGo : Nat → List Nat → List Char
  | _, [] => []
  | 0, _ => []
  | fuel + 1, b :: rest =>
    if b < 0x80 then Char.ofNat b :: utf8DecodeGo fuel rest
    else if b < 0xC2 then Char.ofNat 0xFFFD :: utf8DecodeGo fuel rest
    else if b < 0xE0 then
      match rest with
      | b2 :: rest2 =>
        if utf8Cont b2 then
          Char.ofNat (((b - 0xC0) <<< 6) + (b2 - 0x80)) :: utf8DecodeGo fuel rest2
        else Char.ofNat 0xFFFD :: utf8DecodeGo fuel (b2 :: rest2)
      | [] => [Char.ofNat 0xFFFD]
    else if b < 0xF0 then
      match rest with
      | b2 :: b3 :: rest3 =>
        if utf8Cont b2 && utf8Cont b3 && (b ≠ 0xE0 || 0xA0 ≤ b2) && (b ≠ 0xED || b2 < 0xA0) then
          Char.ofNat (((b - 0xE0) <<< 12) + ((b2 - 0x80) <<< 6) + (b3 - 0x80)) :: utf8DecodeGo fuel rest3
        else Char.ofNat 0xFFFD :: utf8DecodeGo fuel (b2 :: b3 :: rest3)
      | [b2] => Char.ofNat 0xFFFD :: utf8DecodeGo fuel [b2]
      | [] => [Char.ofNat 0xFFFD]
    else if b < 0xF5 then
      match rest with
      | b2 :: b3 :: b4 :: rest4 =>
        if utf8Cont b2 && utf8Cont b3 && utf8Cont b4 &&
            (b ≠ 0xF0 || 0x90 ≤ b2) && (b ≠ 0xF4 || b2 < 0x90) then
          Char.ofNat (((b - 0xF0) <<< 18) + ((b2 - 0x80) <<< 12) +
            ((b3 - 0x80) <<< 6) + (b4 - 0x80)) :: utf8DecodeGo fuel rest4
        else Char.ofNat 0xFFFD :: utf8DecodeGo fuel (b2 :: b3 :: b4 :: rest4)
      | [b2, b3] => Char.ofNat 0xFFFD :: utf8DecodeGo fuel [b2, b3]
      | [b2] => Char.ofNat 0xFFFD :: utf8DecodeGo fuel [b2]
      | [] => [Char.ofNat 0xFFFD]
    else Char.ofNat 0xFFFD :: utf8DecodeGo fuel rest

/-- Models `buffer.toString('utf8')`: standard UTF-8 decoding with U+FFFD
replacement for malformed input. -/
def utf8Decode (bs : List Nat) : List Char :=
  utf8DecodeGo bs.length bs

/-! ## Keccak-256

Implementation of the legacy Keccak-256 hash (`0x01` multi-rate padding) used
by `ethers.utils.keccak256`.  Lanes are `Nat`s kept below `2^64`. -/

/-- Left rotation of a 64-bit lane. -/
def rotl64 (x n : Nat) : Nat :=
  ((x <<< n) ||| (x >>> (64 - n))) % 18446744073709551616

/-- Lane read with zero default. -/
def laneGet (A : List Nat) (i : Nat) : Nat :=
  A.getD i 0

/-- Keccak round constants. -/
def keccakRC : List Nat :=
  [0x0000000000000001, 0x0000000000008082, 0x800000000000808a, 0x8000000080008000,
   0x000000000000808b, 0x0000000080000001, 0x8000000080008081, 0x8000000000008009,
   0x000000000000008a, 0x0000000000000088, 0x0000000080008009, 0x000000008000000a,
   0x000000008000808b, 0x800000000000008b, 0x8000000000008089, 0x8000000000008003,
   0x8000000000008002, 0x8000000000000080, 0x000000000000800a, 0x800000008000000a,
   0x8000000080008081, 0x8000000000008080, 0x0000000080000001, 0x8000000080008008]

/-- Rotation offset table `r[x][y]`, one row per column index `x`. -/
def rhoTable : List (List Nat) :=
  [[0, 36, 3, 41, 18],
   [1, 44, 10, 45, 2],
   [62, 6, 43, 15, 61],
   [28, 55, 25, 21, 56],
   [27, 20, 39, 8, 14]]

/-- Rotation offset for lane `i = x + 5 * y`. -/
def rhoOffset (i : Nat) : Nat :=
  (rhoTable.getD (i % 5) []).getD (i / 5) 0

/-- Keccak theta step. -/
def keccakTheta (A : List Nat) : List Nat :=
  let C := (List.range 5).map (fun x =>
    laneGet A x ^^^ laneGet A (x + 5) ^^^ laneGet A (x + 10) ^^^
      laneGet A (x + 15) ^^^ laneGet A (x + 20))
  let D := (List.range 5).map (fun x =>
    laneGet C ((x + 4) % 5) ^^^ rotl64 (laneGet C ((x + 1) % 5)) 1)
  (List.range 25).map (fun i => laneGet A i ^^^ laneGet D (i % 5))

/-- Keccak rho and pi steps combined. -/
def keccakRhoPi (A : List Nat) : List Nat :=
  (List.range 25).foldl (fun B i =>
    B.set (i / 5 + 5 * ((2 * (i % 5) + 3 * (i / 5)) % 5))
      (rotl64 (laneGet A i) (rhoOffset i)))
    (List.replicate 25 0)

/-- Keccak chi step. -/
def keccakChi (B : List Nat) : List Nat :=
  (List.range 25).map (fun i =>
    laneGet B i ^^^
      ((18446744073709551615 ^^^ laneGet B (i / 5 * 5 + (i % 5 + 1) % 5)) &&&
        laneGet B (i / 5 * 5 + (i % 5 + 2) % 5)))

/-- One Keccak round (theta, rho, pi, chi, iota). -/
def keccakRound (A : List Nat) (rc : Nat) : List Nat :=
  let C := keccakChi (keccakRhoPi (keccakTheta A))
  C.set 0 (laneGet C 0 ^^^ rc)

/-- The Keccak-f[1600] permutation. -/
def keccakF (A : List Nat) : List Nat :=
  keccakRC.foldl keccakRound A

/-- Little-endian lane `j` of a 136-byte block. -/
def laneOfBytes (block : List Nat) (j : Nat) : Nat :=
  (List.range 8).foldr (fun k acc => acc * 256 + block.getD (8 * j + k) 0) 0

/-- Absorb one 136-byte block into the state and permute. -/
def keccakAbsorbBlock (A : List Nat) (block : List Nat) : List Nat :=
  keccakF ((List.range 25).map (fun j =>
    laneGet A j ^^^ (if j < 17 then laneOfBytes block j else 0)))

/-- Worker for `keccakAbsorb`, structurally recursive on a fuel argument so
that it evaluates inside the kernel; every step consumes at least one byte,
so fuel equal to the byte count (supplied by the wrapper) is never
exhausted. -/
def keccakAbsorbGo : Nat → List Nat → List Nat → List Nat
  | _, A, [] => A
  | 0, A, _ => A
  | fuel + 1, A, b :: rest =>
    keccakAbsorbGo fuel (keccakAbsorbBlock A ((b :: rest).take 136)) (rest.drop 135)

/-- Absorb a padded message, 136 bytes at a time. -/
def keccakAbsorb (A : List Nat) (bytes : List Nat) : List Nat :=
  keccakAbsorbGo bytes.length A bytes

/-- Legacy Keccak multi-rate padding (`0x01 … 0x80`). -/
def keccakPad (bytes : List Nat) : List Nat :=
  let padLen := 136 - bytes.length % 136
  if padLen = 1 then bytes ++ [0x81]
  else bytes ++ 0x01 :: (List.replicate (padLen - 2) 0 ++ [0x80])

/-- Keccak-256 digest (32 bytes) of a byte string. -/
def keccak256 (bytes : List Nat) : List Nat :=
  let A := keccakAbsorb (List.replicate 25 0) (keccakPad bytes)
  (List.range 32).map (fun k => (laneGet A (k / 8) >>> (8 * (k % 8))) % 256)

/-- Models `utils.keccak256(buffer)`: the digest rendered as a `0x`-prefixed
lowercase hex string, given here as its character list. -/
def jsKeccak256Chars (bytes : List Nat) : List Char :=
  '0' :: 'x' :: hexCharsOfBytes (keccak256 bytes)

/-! ## Data model

`AbiParam` models one entry of an ABI `inputs`/`outputs` list.  The `plain`
constructor is a parameter without a `components` field; `comp` has one
(possibly empty — an empty JavaScript array is truthy, so it still takes the
`components` branches of the source).  Parameter and entry names are `Option`s:
`none` models an absent (`undefined`) field.  An entry whose `name` is the
JSON literal `null` is not representable (and not needed by the claims). -/

inductive AbiParam where
  | plain (name : Option String) (type : String)
  | comp (name : Option String) (type : String) (components : List AbiParam)

/-- The `type` field of a parameter. -/
def AbiParam.type : AbiParam → String
  | .plain _ t => t
  | .comp _ t _ => t

/-- The `name` field of a parameter (`none` = absent). -/
def AbiParam.name : AbiParam → Option String
  | .plain n _ => n
  | .comp n _ _ => n

/-- One entry of the ABI array. -/
structure AbiEntry where
  type : Option String
  name : Option String
  inputs : Option (List AbiParam)
  outputs : Option (List AbiParam)

/-- A JavaScript value that can reach `_handleInputs`: a type string, an
`AbiParameter` object, a components array, or `undefined`. -/
inductive JsInput where
  | str (s : String)
  | param (p : AbiParam)
  | arr (ps : List AbiParam)
  | undef

/-- A JavaScript value `_handleInputs` can produce: a string, `undefined`
(when control falls off the end of the function), or the argument object
itself (when it has no truthy `type`). -/
inductive JsVal where
  | str (s : String)
  | undef
  | obj (p : AbiParam)

/-- Coercion applied by `Array.prototype.join`: `undefined` prints as the
empty string, a plain object as `[object Object]`. -/
def jsJoinStr : JsVal → String
  | .str s => s
  | .undef => ""
  | .obj _ => "[object Object]"

/-- Coercion applied by the `+` operator: `undefined` prints as
`"undefined"`. -/
def jsPlusStr : JsVal → String
  | .str s => s
  | .undef => "undefined"
  | .obj _ => "[object Object]"

/-! ## `_handleInputs` and `_genMethodId` -/

/-- Models a call of `_handleInputs` on a JavaScript array (a `components`
list).  The source builds the parenthesized signature into a local `ret`, but
only the `tupleArray` branch returns it: for a plain array argument control
falls off the end of the function, so the call evaluates to `undefined`. -/
def handleInputsOnArr : List AbiParam → JsVal :=
  fun _ => JsVal.undef

/-- Models the recursive call `this._handleInputs(x.components)` made from the
reduce inside `_handleInputs`: for a parameter without a `components` field
the argument is `undefined` (and `_handleInputs(undefined)` returns its
argument); for one with components the argument is the components array. -/
def handleInputsComponents : AbiParam → JsVal
  | .plain _ _ => JsVal.undef
  | .comp _ _ cs => handleInputsOnArr cs

/-- Models one step of the reduce inside `_handleInputs` building `ret`. -/
def handleInputsFrag (x : AbiParam) : String :=
  if AbiParam.type x = "tuple" then jsJoinStr (handleInputsComponents x)
  else if AbiParam.type x = "tuple[]" then jsPlusStr (handleInputsComponents x) ++ "[]"
  else AbiParam.type x

/-- The local `ret` of `_handleInputs`: `'(' + components.reduce(...).join(',') + ')'`. -/
def sigParen (ps : List AbiParam) : String :=
  "(" ++ String.intercalate "," (ps.map handleInputsFrag) ++ ")"

/-- Models `_handleInputs`.  A string argument is returned unchanged; an
object with a (truthy) `components` field takes the `tupleArray` branch and
returns `ret + '[]'`; an object without components returns its `type` when
that is truthy and the object itself otherwise; an array argument falls off
the end of the function (see `handleInputsOnArr`). -/
def handleInputs : JsInput → JsVal
  | .str s => JsVal.str s
  | .undef => JsVal.undef
  | .arr ps => handleInputsOnArr ps
  | .param (.plain n t) => if t = "" then JsVal.obj (.plain n t) else JsVal.str t
  | .param (.comp _ _ cs) => JsVal.str (sigParen cs ++ "[]")

/-- Models `_genMethodId`: build `name + '(' + types.map(_handleInputs).join(',') + ')'`
(a `null` method name coerces to the string `"null"`), keccak-256 hash the
UTF-8 bytes, and take `slice(2, 10)` of the `0x`-prefixed hex digest. -/
def genMethodId (methodName : Option String) (types : List JsInput) : String :=
  let input := jsNullToStr methodName ++ "(" ++
    String.intercalate "," (types.map (fun x => jsJoinStr (handleInputs x))) ++ ")"
  String.mk (((jsKeccak256Chars (utf8Encode input)).drop 2).take 8)

/-! ## `_extractInfoFromABI` -/

/-- Argument passed to the external ABI codec: the source hands it a byte
buffer when decoding inputs and the raw hex string when decoding outputs. -/
inductive CodecArg where
  | bytes (bs : List Nat)
  | str (s : String)
deriving DecidableEq

/-- The external `utils.defaultAbiCoder.decode`, kept opaque: given the type
list and the payload it yields decoded values (modelled as opaque numbers) or
throws.  Theorems quantify over it. -/
def Codec : Type :=
  List JsInput → CodecArg → Except String (List Nat)

/-- Errors the embedded functions can raise: a JavaScript `TypeError` (a
property access on `undefined`) or an error thrown by the ABI codec. -/
inductive JsError where
  | typeError
  | decoding (msg : String)
deriving DecidableEq

/-- The record built by `_extractInfoFromABI` for a match (and, with `method`
`none` and empty lists, its no-match default). -/
structure ExtractInfo where
  method : Option String
  typesInput : List JsInput
  inputs : List Nat
  namesInput : List (Option String)
  typesOutput : List JsInput
  namesOutput : List (Option String)

/-- The no-match accumulator of the reduce. -/
def extractDefault : ExtractInfo :=
  ⟨none, [], [], [], [], []⟩

/-- The `typesInput` list of an entry: a `tuple[]` parameter contributes the
whole parameter object, anything else its `type` string; an absent `inputs`
field contributes the empty list. -/
def entryTypesInput (e : AbiEntry) : List JsInput :=
  (e.inputs.getD []).map (fun x =>
    if AbiParam.type x = "tuple[]" then JsInput.param x else JsInput.str (AbiParam.type x))

/-- The `typesOutput` list of an entry, built the same way from `outputs`. -/
def entryTypesOutput (e : AbiEntry) : List JsInput :=
  (e.outputs.getD []).map (fun x =>
    if AbiParam.type x = "tuple[]" then JsInput.param x else JsInput.str (AbiParam.type x))

/-- The `namesInput` list: a `tuple[]` parameter contributes `''`, anything
else its (possibly absent) `name`. -/
def entryNamesInput (e : AbiEntry) : List (Option String) :=
  (e.inputs.getD []).map (fun x =>
    if AbiParam.type x = "tuple[]" then some "" else AbiParam.name x)

/-- The `namesOutput` list, built the same way from `outputs`. -/
def entryNamesOutput (e : AbiEntry) : List (Option String) :=
  (e.outputs.getD []).map (fun x =>
    if AbiParam.type x = "tuple[]" then some "" else AbiParam.name x)

/-- The selector recomputed for an entry:
`_genMethodId(obj.name || null, typesInput)`. -/
def entryHash (e : AbiEntry) : String :=
  genMethodId (jsFalsyToNull e.name) (entryTypesInput e)

/-- The hex byte buffer of the call data:
`Buffer.from(data.replace(/^0x/, ''), 'hex')`. -/
def dataBufOf (data : String) : List Nat :=
  bufferFromHex (jsStrip0x data).data

/-- The requested selector: the first (up to) 4 bytes of the call data,
rendered as lowercase hex. -/
def methodIdOf (data : String) : String :=
  String.mk (hexCharsOfBytes ((dataBufOf data).take 4))

/-- The parameter bytes of the call data (`dataBuf.subarray(4)`). -/
def inputsBufOf (data : String) : List Nat :=
  (dataBufOf data).drop 4

/-- The match record returned by the reduce for entry `e` with decoded input
values `vs`. -/
def mkExtractInfo (e : AbiEntry) (vs : List Nat) : ExtractInfo :=
  ⟨jsFalsyToNull e.name, entryTypesInput e, vs, entryNamesInput e,
    entryTypesOutput e, entryNamesOutput e⟩

/-- One step of the reduce of `_extractInfoFromABI`: `constructor` and `event`
entries are skipped; any other entry whose recomputed selector equals the
requested one has its input bytes decoded and replaces the accumulator (a
thrown codec error aborts the whole reduce).  The reduce never stops early, so
a later match overwrites an earlier one. -/
def extractStep (codec : Codec) (methodId : String) (inputsBuf : List Nat)
    (acc : Except JsError ExtractInfo) (obj : AbiEntry) : Except JsError ExtractInfo :=
  match acc with
  | .error e => .error e
  | .ok acc0 =>
    if obj.type = some "constructor" then .ok acc0
    else if obj.type = some "event" then .ok acc0
    else if entryHash obj = methodId then
      match codec (entryTypesInput obj) (CodecArg.bytes inputsBuf) with
      | .ok vs => .ok (mkExtractInfo obj vs)
      | .error msg => .error (JsError.decoding msg)
    else .ok acc0

/-- Models `_extractInfoFromABI`. -/
def extractInfoFromABI (codec : Codec) (data : String) (abi : List AbiEntry) :
    Except JsError ExtractInfo :=
  abi.foldl (extractStep codec (methodIdOf data) (inputsBufOf data)) (.ok extractDefault)

/-! ## Public decode operations -/

/-- A decoded-values object `{_length: n, 0: v0, 1: v1, ...}` or, on the
degraded output path, a plain string. -/
inductive JsIndexed where
  | coll (length : Nat) (vals : List (Option Nat))
  | plain (s : String)
deriving DecidableEq

/-- The `(_length, number of indexed entries)` of a counted collection;
`none` for a plain string, which carries no count. -/
def JsIndexed.counted : JsIndexed → Option (Nat × Nat)
  | .coll n vs => some (n, vs.length)
  | .plain _ => none

/-- Result of `decodeInputFromData`. -/
structure InputResponse where
  methodName : Option String
  inputNames : List (Option String)
  inputTypes : List JsInput
  decodedInput : JsIndexed

/-- Models `decodeInputFromData`: extract the match information and assemble
`{_length: names.length}` with one indexed slot per name (a slot beyond the
decoded values would be `undefined`, modelled as `none`). -/
def decodeInputFromData (codec : Codec) (data : String) (abi : List AbiEntry) :
    Except JsError InputResponse :=
  match extractInfoFromABI codec data abi with
  | .error e => .error e
  | .ok resultInput =>
    let names := resultInput.namesInput
    let inputs := resultInput.inputs
    let types := resultInput.typesInput
    .ok ⟨resultInput.method, names, types,
      JsIndexed.coll names.length ((List.range names.length).map (fun i => inputs.get? i))⟩

/-- The predicate of `abi.find(i => i.name === resultInput.method)`.  JS
strict equality: `undefined === null` is false, so a `null` method matches no
entry (an entry's absent `name` is `undefined`). -/
def nameMatchPred (m : Option String) (e : AbiEntry) : Bool :=
  match m, e.name with
  | some ms, some ns => ms == ns
  | _, _ => false

/-- Models `abi.find(i => i.name === method)`: the first entry with that
name. -/
def findByName (abi : List AbiEntry) (m : Option String) : Option AbiEntry :=
  abi.find? (nameMatchPred m)

/-- Models the `forEach` normalization of an output-name list: every falsy
entry (absent, or the empty string) is replaced by `null`. -/
def normalizeNames (names : List (Option String)) : List (Option String) :=
  names.map jsFalsyToNull

/-- Result of `decodeResultFromData`.  On the no-outputs path the source
returns empty objects `{}` for the name and type fields, modelled as empty
lists. -/
structure ResultResponse where
  methodName : Option String
  outputNames : List (Option String)
  outputTypes : List String
  decodedOutput : JsIndexed
deriving DecidableEq

/-- Models `decodeResultFromData`.  The entry is looked up again **by name**
(`abi.find(i => i.name === resultInput.method)`); if that lookup finds
nothing, reading `.outputs` of `undefined` throws a `TypeError`.  An entry
without `outputs` short-circuits to an empty result.  If `encodedResult` does
not contain `'0x'` anywhere, the degraded hex-pair path is taken; otherwise
the codec decodes the result string against the found entry's output types. -/
def decodeResultFromData (codec : Codec) (data encodedResult : String)
    (abi : List AbiEntry) : Except JsError ResultResponse :=
  match extractInfoFromABI codec data abi with
  | .error e => .error e
  | .ok resultInput =>
    match findByName abi resultInput.method with
    | none => .error JsError.typeError
    | some functionABI =>
      match functionABI.outputs with
      | none => .ok ⟨resultInput.method, [], [], JsIndexed.coll 0 []⟩
      | some outputType =>
        let types := outputType.map AbiParam.type
        let names := normalizeNames resultInput.namesOutput
        if jsIncludes0x encodedResult = false then
          .ok ⟨resultInput.method, names, types,
            JsIndexed.plain (jsHexPairsToString encodedResult)⟩
        else
          match codec (types.map JsInput.str) (CodecArg.str encodedResult) with
          | .ok outputs =>
            .ok ⟨resultInput.method, names, types,
              JsIndexed.coll types.length
                ((List.range types.length).map (fun i => outputs.get? i))⟩
          | .error msg => .error (JsError.decoding msg)

/-! ## `decodeRevertMessageFromTransaction` -/

/-- One element of a transaction's `ret` array. -/
structure TxRet where
  contractRet : String
deriving DecidableEq

/-- The part of a transaction record read by the revert extractor. -/
structure Transaction where
  ret : List TxRet
deriving DecidableEq

/-- Result of the revert extractor. -/
structure RevertResult where
  txStatus : String
  revertMessage : String
deriving DecidableEq

/-- Models `decodeRevertMessageFromTransaction`: reading `ret[0]` of an empty
array would throw; on `REVERT` the last 64 characters of the result string
(`substring` clamps a negative start to 0, exactly like truncated `Nat`
subtraction) are hex-parsed, UTF-8 decoded, and stripped of null characters;
any other status echoes the status with an empty message. -/
def decodeRevertMessageFromTransaction (transaction : Transaction)
    (encodedResult : String) : Except JsError RevertResult :=
  match transaction.ret.get? 0 with
  | none => .error JsError.typeError
  | some r0 =>
    let txStatus := r0.contractRet
    if txStatus = "REVERT" then
      let encodedResultNoPrefix := encodedResult.data.drop (encodedResult.data.length - 64)
      let resMessage := String.mk
        ((utf8Decode (bufferFromHex encodedResultNoPrefix)).filter
          (fun c => c ≠ Char.ofNat 0))
      .ok ⟨txStatus, resMessage⟩
    else .ok ⟨txStatus, ""⟩

/-! ## Spec-side definitions and helper lemmas -/

/-- Spec-side reading of the selector rule: the first 4 bytes of the
keccak-256 digest of the signature bytes, rendered as lowercase hex. -/
def selectorSpec (bytes : List Nat) : String :=
  String.mk (hexCharsOfBytes ((keccak256 bytes).take 4))

/-- Spec-side reading of the revert-reason rule: the last 64 hex characters
of the result string, parsed to the trailing 32 bytes, decoded as UTF-8, with
every null character removed. -/
def revertSpecMessage (encodedResult : String) : String :=
  String.mk ((utf8Decode (bufferFromHex
    (encodedResult.data.drop (encodedResult.data.length - 64)))).filter
      (fun c => c ≠ Char.ofNat 0))

/-- An ABI-encoded `Error(string)` revert payload whose trailing 32-byte word
is `"Plot is not currently owned"` followed by five null bytes. -/
def plotEncodedResult : String :=
  "0x08c379a0" ++
  "0000000000000000000000000000000000000000000000000000000000000020" ++
  "000000000000000000000000000000000000000000000000000000000000001b" ++
  "506c6f74206973206e6f742063757272656e746c79206f776e65640000000000"

theorem map_handleInputs_str (types : List String) :
    (types.map JsInput.str).map (fun x => jsJoinStr (handleInputs x)) = types := by
  induction types with
  | nil => rfl
  | cons t ts ih =>
    simp only [List.map_cons]
    rw [ih]
    rfl

theorem hexCharsOfBytes_take (bs : List Nat) (k : Nat) :
    (hexCharsOfBytes bs).take (2 * k) = hexCharsOfBytes (bs.take k) := by
  induction bs generalizing k with
  | nil => simp [hexCharsOfBytes]
  | cons b rest ih =>
    cases k with
    | zero => simp [hexCharsOfBytes]
    | succ k2 =>
      have h2 : 2 * (k2 + 1) = 2 * k2 + 1 + 1 := by ring
      simp only [hexCharsOfBytes, List.map_cons, List.flatten_cons, byteHexChars, h2,
        List.cons_append, List.nil_append, List.take_succ_cons]
      have := ih k2
      simp only [hexCharsOfBytes] at this
      rw [this]

/-- No non-constructor, non-event entry of the ABI recomputes to the
requested selector. -/
def noEntryMatches (data : String) (abi : List AbiEntry) : Prop :=
  ∀ e ∈ abi,
    e.type = some "constructor" ∨ e.type = some "event" ∨ entryHash e ≠ methodIdOf data

instance (data : String) (abi : List AbiEntry) : Decidable (noEntryMatches data abi) :=
  List.decidableBAll _ abi

theorem extractStep_ok_skip (codec : Codec) (mid : String) (ibuf : List Nat)
    (acc : ExtractInfo) (e : AbiEntry)
    (h : e.type = some "constructor" ∨ e.type = some "event" ∨ entryHash e ≠ mid) :
    extractStep codec mid ibuf (Except.ok acc) e = Except.ok acc := by
  simp only [extractStep]
  rcases h with h | h | h
  · rw [if_pos h]
  · by_cases hc : e.type = some "constructor"
    · rw [if_pos hc]
    · rw [if_neg hc, if_pos h]
  · by_cases hc : e.type = some "constructor"
    · rw [if_pos hc]
    · rw [if_neg hc]
      by_cases hv : e.type = some "event"
      · rw [if_pos hv]
      · rw [if_neg hv, if_neg h]

theorem foldl_extractStep_preserve (codec : Codec) (data : String) (l : List AbiEntry)
    (acc : ExtractInfo)
    (h : ∀ e ∈ l,
      e.type = some "constructor" ∨ e.type = some "event" ∨ entryHash e ≠ methodIdOf data) :
    List.foldl (extractStep codec (methodIdOf data) (inputsBufOf data)) (Except.ok acc) l =
      Except.ok acc := by
  induction l with
  | nil => rfl
  | cons a l ih =>
    rw [List.foldl_cons, extractStep_ok_skip _ _ _ _ _ (h a (List.mem_cons_self a l))]
    exact ih (fun x hx => h x (List.mem_cons_of_mem a hx))

theorem extract_nomatch (codec : Codec) (data : String) (abi : List AbiEntry)
    (h : noEntryMatches data abi) :
    extractInfoFromABI codec data abi = Except.ok extractDefault :=
  foldl_extractStep_preserve codec data abi extractDefault h

theorem foldl_extractStep_error (codec : Codec) (mid : String) (ibuf : List Nat)
    (l : List AbiEntry) (err : JsError) :
    List.foldl (extractStep codec mid ibuf) (Except.error err) l = Except.error err := by
  induction l with
  | nil => rfl
  | cons a l ih => exact ih

theorem extractStep_codec_bytes (codec codec2 : Codec) (mid : String) (ibuf : List Nat)
    (hagree : ∀ tys bs, codec tys (CodecArg.bytes bs) = codec2 tys (CodecArg.bytes bs))
    (acc : Except JsError ExtractInfo) (e : AbiEntry) :
    extractStep codec mid ibuf acc e = extractStep codec2 mid ibuf acc e := by
  cases acc with
  | error err => rfl
  | ok acc0 => simp only [extractStep, hagree]

theorem extract_codec_bytes (codec codec2 : Codec) (data : String) (abi : List AbiEntry)
    (hagree : ∀ tys bs, codec tys (CodecArg.bytes bs) = codec2 tys (CodecArg.bytes bs)) :
    extractInfoFromABI codec data abi = extractInfoFromABI codec2 data abi := by
  unfold extractInfoFromABI
  have hgen : ∀ (l : List AbiEntry) (acc : Except JsError ExtractInfo),
      List.foldl (extractStep codec (methodIdOf data) (inputsBufOf data)) acc l =
        List.foldl (extractStep codec2 (methodIdOf data) (inputsBufOf data)) acc l := by
    intro l
    induction l with
    | nil => intro acc; rfl
    | cons a l ih =>
      intro acc
      rw [List.foldl_cons, List.foldl_cons,
        extractStep_codec_bytes codec codec2 _ _ hagree acc a, ih]
  exact hgen abi (Except.ok extractDefault)

theorem foldl_extractStep_ok_inv (codec : Codec) (mid : String) (ibuf : List Nat) :
    ∀ (l : List AbiEntry) (a r : ExtractInfo),
      List.foldl (extractStep codec mid ibuf) (Except.ok a) l = Except.ok r →
      r = a ∨ ∃ e, e ∈ l ∧ entryHash e = mid ∧ ∃ vs, r = mkExtractInfo e vs := by
  intro l
  induction l with
  | nil =>
    intro a r h
    injection h with h2
    exact Or.inl h2.symm
  | cons x l ih =>
    intro a r h
    rw [List.foldl_cons] at h
    by_cases hc : x.type = some "constructor"
    · rw [extractStep_ok_skip codec mid ibuf a x (Or.inl hc)] at h
      rcases ih a r h with h1 | ⟨e, he, hm, vs, hr⟩
      · exact Or.inl h1
      · exact Or.inr ⟨e, List.mem_cons_of_mem x he, hm, vs, hr⟩
    · by_cases hv : x.type = some "event"
      · rw [extractStep_ok_skip codec mid ibuf a x (Or.inr (Or.inl hv))] at h
        rcases ih a r h with h1 | ⟨e, he, hm, vs, hr⟩
        · exact Or.inl h1
        · exact Or.inr ⟨e, List.mem_cons_of_mem x he, hm, vs, hr⟩
      · by_cases hm : entryHash x = mid
        · cases hcodec : codec (entryTypesInput x) (CodecArg.bytes ibuf) with
          | ok vs =>
            have hs : extractStep codec mid ibuf (Except.ok a) x =
                Except.ok (mkExtractInfo x vs) := by
              simp only [extractStep, if_neg hc, if_neg hv, if_pos hm, hcodec]
            rw [hs] at h
            rcases ih (mkExtractInfo x vs) r h with h1 | ⟨e, he, hm2, vs2, hr⟩
            · exact Or.inr ⟨x, List.mem_cons_self x l, hm, vs, h1⟩
            · exact Or.inr ⟨e, List.mem_cons_of_mem x he, hm2, vs2, hr⟩
          | error msg =>
            have hs : extractStep codec mid ibuf (Except.ok a) x =
                Except.error (JsError.decoding msg) := by
              simp only [extractStep, if_neg hc, if_neg hv, if_pos hm, hcodec]
            rw [hs, foldl_extractStep_error] at h
            cases h
        · rw [extractStep_ok_skip codec mid ibuf a x (Or.inr (Or.inr hm))] at h
          rcases ih a r h with h1 | ⟨e, he, hm2, vs, hr⟩
          · exact Or.inl h1
          · exact Or.inr ⟨e, List.mem_cons_of_mem x he, hm2, vs, hr⟩

theorem extract_ok_cases (codec : Codec) (data : String) (abi : List AbiEntry)
    (r : ExtractInfo) (h : extractInfoFromABI codec data abi = Except.ok r) :
    r = extractDefault ∨
      ∃ e, e ∈ abi ∧ entryHash e = methodIdOf data ∧ ∃ vs, r = mkExtractInfo e vs :=
  foldl_extractStep_ok_inv codec (methodIdOf data) (inputsBufOf data) abi extractDefault r h

theorem nameMatchPred_none (e : AbiEntry) : nameMatchPred none e = false := by
  unfold nameMatchPred
  cases e.name <;> rfl

theorem findByName_none (abi : List AbiEntry) : findByName abi none = none := by
  induction abi with
  | nil => rfl
  | cons a l ih =>
    unfold findByName at ih ⊢
    rw [List.find?_cons, nameMatchPred_none]
    exact ih

/-! ## Claim theorems -/

/-- C1: for an ABI entry with a (plain string) input type list, `_genMethodId`
computes the selector as the first 4 bytes of the keccak-256 hash of
`name + '(' + types.join(',') + ')'` rendered as lowercase hex; in particular
the entry `transfer(address,uint256)` yields `"a9059cbb"`. -/
theorem c1_selector_first_four_bytes :
    (∀ (methodName : String) (types : List String),
      genMethodId (some methodName) (types.map JsInput.str) =
        selectorSpec (utf8Encode (methodName ++ "(" ++ String.intercalate "," types ++ ")"))) ∧
    genMethodId (some "transfer") [JsInput.str "address", JsInput.str "uint256"] = "a9059cbb" := by
  constructor
  · intro methodName types
    unfold genMethodId selectorSpec jsKeccak256Chars jsNullToStr
    rw [map_handleInputs_str]
    simp only [List.drop_succ_cons, List.drop_zero]
    have h8 : (8 : Nat) = 2 * 4 := by norm_num
    rw [h8, hexCharsOfBytes_take]
  · rfl

/-- C3 (evaluation at the failing inputs): the canonicalization used for
selector computation does not produce the parenthesized component list for
tuples.  A top-level `tuple` parameter is passed through as the literal string
`"tuple"` (never expanded); a `tuple` nested in a `tuple[]`'s components
contributes the empty string (the recursive `_handleInputs` call returns
`undefined`, which `join` renders as `''`), so the signature fragment is
`"()[]"` instead of `"((uint256))[]"`; a nested `tuple[]` contributes the
literal `"undefined[]"`.  Only a `tuple[]` whose components are all plain
types is rendered as the claim states. -/
theorem c3_tuple_canonicalization_eval :
    entryTypesInput ⟨some "function", some "f",
        some [AbiParam.comp none "tuple" [AbiParam.plain none "uint256"]], none⟩ =
      [JsInput.str "tuple"] ∧
    handleInputs (JsInput.param (AbiParam.comp none "tuple[]"
        [AbiParam.comp none "tuple" [AbiParam.plain none "uint256"]])) = JsVal.str "()[]" ∧
    handleInputs (JsInput.param (AbiParam.comp none "tuple[]"
        [AbiParam.comp none "tuple[]" [AbiParam.plain none "uint256"]])) =
      JsVal.str "(undefined[])[]" ∧
    handleInputs (JsInput.param (AbiParam.comp none "tuple[]"
        [AbiParam.plain none "uint256", AbiParam.plain none "address"])) =
      JsVal.str "(uint256,address)[]" :=
  ⟨rfl, rfl, rfl, rfl⟩

/-- C4: on a `REVERT` status the extractor returns the status together with
the UTF-8 decoding of the last 32 bytes (final 64 hex characters) of the
result string, nulls removed; on the 'Plot is not currently owned' payload it
returns exactly that message. -/
theorem c4_revert_message (t : Transaction) (encodedResult : String)
    (h : t.ret.get? 0 = some ⟨"REVERT"⟩) (hlen : 64 ≤ encodedResult.data.length) :
    decodeRevertMessageFromTransaction t encodedResult =
      Except.ok ⟨"REVERT", revertSpecMessage encodedResult⟩ ∧
    decodeRevertMessageFromTransaction ⟨[⟨"REVERT"⟩]⟩ plotEncodedResult =
      Except.ok ⟨"REVERT", "Plot is not currently owned"⟩ := by
  refine ⟨?_, by rfl⟩
  unfold decodeRevertMessageFromTransaction
  rw [h]
  rfl

/-- Witness for C4 at the concrete `Plot is not currently owned` payload. -/
theorem c4_revert_message_witness :
    decodeRevertMessageFromTransaction ⟨[⟨"REVERT"⟩]⟩ plotEncodedResult =
      Except.ok ⟨"REVERT", revertSpecMessage plotEncodedResult⟩ :=
  (c4_revert_message ⟨[⟨"REVERT"⟩]⟩ plotEncodedResult rfl (by decide)).1

/-- C8: on any status other than `REVERT` the extractor returns the status
unchanged with an empty message, for every result string; the result does not
depend on the result-string argument. -/
theorem c8_non_revert_status (t : Transaction) (s : String) (enc1 enc2 : String)
    (h : t.ret.get? 0 = some ⟨s⟩) (hs : s ≠ "REVERT") :
    decodeRevertMessageFromTransaction t enc1 = Except.ok ⟨s, ""⟩ ∧
    decodeRevertMessageFromTransaction t enc1 =
      decodeRevertMessageFromTransaction t enc2 := by
  unfold decodeRevertMessageFromTransaction
  rw [h]
  refine ⟨?_, ?_⟩ <;> simp only [if_neg hs]

/-- C2: when the call-data selector matches no non-constructor, non-event
entry of the ABI, `decodeInputFromData` returns `methodName: null` with empty
name, type, and value collections (`_length: 0`) and raises no error, for
every codec. -/
theorem c2_no_match_sentinel (codec : Codec) (data : String) (abi : List AbiEntry)
    (h : noEntryMatches data abi) :
    decodeInputFromData codec data abi =
      Except.ok ⟨none, [], [], JsIndexed.coll 0 []⟩ := by
  simp only [decodeInputFromData, extract_nomatch codec data abi h]
  rfl

/-- The concrete ERC-20 `transfer(address,uint256)` ABI entry. -/
def transferEntry : AbiEntry :=
  ⟨some "function", some "transfer",
    some [AbiParam.plain (some "to") "address", AbiParam.plain (some "amount") "uint256"],
    some [AbiParam.plain none "uint256"]⟩

/-- A benign concrete codec: one decoded value per requested type. -/
def codec0 : Codec :=
  fun tys _ => Except.ok (tys.map (fun _ => 0))

/-- Witness for C2: call data with selector `00000000` matches nothing in an
ABI containing only `transfer(address,uint256)` (selector `a9059cbb`). -/
theorem c2_no_match_sentinel_witness :
    decodeInputFromData codec0 "0x00000000" [transferEntry] =
      Except.ok ⟨none, [], [], JsIndexed.coll 0 []⟩ :=
  c2_no_match_sentinel codec0 "0x00000000" [transferEntry] (by decide)

/-- C10: when the selector matches nothing (so the extracted method name is
`null`) and no entry's name is `null` (an absent `name` is `undefined`, and
`undefined === null` is false, so the name lookup always fails),
`decodeResultFromData` throws a `TypeError` (reading `.outputs` of
`undefined`), while `decodeInputFromData` returns the null-method sentinel. -/
theorem c10_unmatched_result_type_error (codec : Codec) (data encodedResult : String)
    (abi : List AbiEntry) (h : noEntryMatches data abi) :
    decodeResultFromData codec data encodedResult abi = Except.error JsError.typeError ∧
    decodeInputFromData codec data abi =
      Except.ok ⟨none, [], [], JsIndexed.coll 0 []⟩ := by
  constructor
  · simp only [decodeResultFromData, extract_nomatch codec data abi h, extractDefault,
      findByName_none]
  · simp only [decodeInputFromData, extract_nomatch codec data abi h]
    rfl

/-- Witness for C10 at the concrete unmatched call data `0x00000000`. -/
theorem c10_unmatched_result_type_error_witness :
    decodeResultFromData codec0 "0x00000000" "0x00" [transferEntry] =
      Except.error JsError.typeError ∧
    decodeInputFromData codec0 "0x00000000" [transferEntry] =
      Except.ok ⟨none, [], [], JsIndexed.coll 0 []⟩ :=
  c10_unmatched_result_type_error codec0 "0x00000000" "0x00" [transferEntry] (by decide)

/-- C7 (amended): the reduce of `_extractInfoFromABI` never stops early, so
when an entry `e` matches and no later entry matches, the result is built
from `e` — the **last** matching entry in array order wins, whatever matches
occurred earlier. -/
theorem c7_last_match_wins (codec : Codec) (data : String) (l1 l2 : List AbiEntry)
    (e : AbiEntry) (vs : List Nat) (r1 : ExtractInfo)
    (h1 : extractInfoFromABI codec data l1 = Except.ok r1)
    (hc : ¬ e.type = some "constructor") (hv : ¬ e.type = some "event")
    (hm : entryHash e = methodIdOf data)
    (hcodec : codec (entryTypesInput e) (CodecArg.bytes (inputsBufOf data)) = Except.ok vs)
    (h2 : noEntryMatches data l2) :
    extractInfoFromABI codec data (l1 ++ e :: l2) = Except.ok (mkExtractInfo e vs) := by
  unfold extractInfoFromABI at h1 ⊢
  rw [List.foldl_append, h1, List.foldl_cons]
  have hstep : extractStep codec (methodIdOf data) (inputsBufOf data) (Except.ok r1) e =
      Except.ok (mkExtractInfo e vs) := by
    simp only [extractStep, if_neg hc, if_neg hv, if_pos hm, hcodec]
  rw [hstep]
  exact foldl_extractStep_preserve codec data l2 (mkExtractInfo e vs) h2

/-- An ABI with two entries of identical signature `transfer(address,uint256)`
whose input parameter names differ, so the two matches are observable. -/
def abiDup : List AbiEntry :=
  [⟨some "function", some "transfer",
      some [AbiParam.plain (some "to") "address", AbiParam.plain (some "amount") "uint256"],
      none⟩,
   ⟨some "function", some "transfer",
      some [AbiParam.plain (some "x") "address", AbiParam.plain (some "y") "uint256"],
      none⟩]

/-- Counterexample to C7 as stated: with two entries whose selectors both
equal the requested `a9059cbb`, the Selector Resolver returns the **second**
entry's information (input names `x`, `y`), not the first entry's
(`to`, `amount`): the scan does not stop at the first match. -/
theorem c7_counterexample :
    (extractInfoFromABI codec0 "0xa9059cbb" abiDup).map (fun r => r.namesInput) =
      Except.ok [some "x", some "y"] ∧
    (abiDup.map entryNamesInput) =
      [[some "to", some "amount"], [some "x", some "y"]] :=
  ⟨rfl, rfl⟩

/-- Witness for C7 (amended) with an earlier match present: the first
`abiDup` entry already matched, the second matches as well and its record is
returned. -/
theorem c7_last_match_wins_witness :
    extractInfoFromABI codec0 "0xa9059cbb" abiDup =
      Except.ok (mkExtractInfo
        ⟨some "function", some "transfer",
          some [AbiParam.plain (some "x") "address", AbiParam.plain (some "y") "uint256"],
          none⟩ [0, 0]) :=
  c7_last_match_wins codec0 "0xa9059cbb"
    [⟨some "function", some "transfer",
        some [AbiParam.plain (some "to") "address", AbiParam.plain (some "amount") "uint256"],
        none⟩]
    []
    ⟨some "function", some "transfer",
        some [AbiParam.plain (some "x") "address", AbiParam.plain (some "y") "uint256"],
        none⟩
    [0, 0]
    (mkExtractInfo
      ⟨some "function", some "transfer",
          some [AbiParam.plain (some "to") "address", AbiParam.plain (some "amount") "uint256"],
          none⟩ [0, 0])
    (by rfl) (by decide) (by decide) (by rfl) (by rfl) (by decide)

/-- C5 (amended): for a matched entry with outputs and an encoded-result
string that does not contain `'0x'` **anywhere** (the source tests substring
inclusion, not a prefix), `decodeResultFromData` takes the degraded path: the
decoded output is the plain hex-pair string, and the result is unchanged
under any replacement of the codec that agrees on byte-buffer arguments
(i.e. the codec is never applied to the result string). -/
theorem c5_degraded_path (codec : Codec) (data encodedResult : String)
    (abi : List AbiEntry) (r : ExtractInfo) (e : AbiEntry) (outs : List AbiParam)
    (hr : extractInfoFromABI codec data abi = Except.ok r)
    (hf : findByName abi r.method = some e)
    (ho : e.outputs = some outs)
    (hnox : jsIncludes0x encodedResult = false) :
    decodeResultFromData codec data encodedResult abi =
      Except.ok ⟨r.method, normalizeNames r.namesOutput, outs.map AbiParam.type,
        JsIndexed.plain (jsHexPairsToString encodedResult)⟩ ∧
    ∀ codec2 : Codec,
      (∀ tys bs, codec tys (CodecArg.bytes bs) = codec2 tys (CodecArg.bytes bs)) →
      decodeResultFromData codec data encodedResult abi =
        decodeResultFromData codec2 data encodedResult abi := by
  have hmain : ∀ c2 : Codec, extractInfoFromABI c2 data abi = Except.ok r →
      decodeResultFromData c2 data encodedResult abi =
        Except.ok ⟨r.method, normalizeNames r.namesOutput, outs.map AbiParam.type,
          JsIndexed.plain (jsHexPairsToString encodedResult)⟩ := by
    intro c2 hr2
    simp only [decodeResultFromData, hr2, hf, ho, hnox, if_true]
  refine ⟨hmain codec hr, ?_⟩
  intro codec2 hagree
  rw [hmain codec hr, hmain codec2 ?_]
  rw [← extract_codec_bytes codec codec2 data abi hagree]
  exact hr

/-- Counterexample to C5 as stated: the string `"61620x"` does not begin with
`'0x'`, yet because it contains `'0x'` the code sends it to the ABI codec and
returns a counted collection, not the hex-pair plain string. -/
theorem c5_counterexample :
    decodeResultFromData codec0 "0xa9059cbb" "61620x" [transferEntry] =
      Except.ok ⟨some "transfer", [none], ["uint256"], JsIndexed.coll 1 [some 0]⟩ ∧
    (JsIndexed.coll 1 [some 0]).counted = some (1, 1) ∧
    (JsIndexed.plain (jsHexPairsToString "61620x")).counted = none :=
  ⟨rfl, rfl, rfl⟩

/-- Witness for C5 (amended) at the codec-free result string `"6162"`, which
decodes to the plain string `"ab"`. -/
theorem c5_degraded_path_witness :
    decodeResultFromData codec0 "0xa9059cbb" "6162" [transferEntry] =
      Except.ok ⟨some "transfer", [none], ["uint256"], JsIndexed.plain "ab"⟩ :=
  (c5_degraded_path codec0 "0xa9059cbb" "6162" [transferEntry]
    (mkExtractInfo transferEntry [0, 0]) transferEntry [AbiParam.plain none "uint256"]
    (by rfl) (by rfl) (by rfl) (by rfl)).1

/-- C6 (amended): when the entry found **by name lookup** for the matched
method name has no `outputs` field, `decodeResultFromData` short-circuits to
the matched method name with empty names/types and a zero-count collection,
without applying the codec to the result string (the result is unchanged
under any codec agreeing on byte-buffer arguments). -/
theorem c6_no_outputs_short_circuit (codec : Codec) (data encodedResult : String)
    (abi : List AbiEntry) (r : ExtractInfo) (e : AbiEntry)
    (hr : extractInfoFromABI codec data abi = Except.ok r)
    (hf : findByName abi r.method = some e)
    (ho : e.outputs = none) :
    decodeResultFromData codec data encodedResult abi =
      Except.ok ⟨r.method, [], [], JsIndexed.coll 0 []⟩ ∧
    ∀ codec2 : Codec,
      (∀ tys bs, codec tys (CodecArg.bytes bs) = codec2 tys (CodecArg.bytes bs)) →
      decodeResultFromData codec data encodedResult abi =
        decodeResultFromData codec2 data encodedResult abi := by
  have hmain : ∀ c2 : Codec, extractInfoFromABI c2 data abi = Except.ok r →
      decodeResultFromData c2 data encodedResult abi =
        Except.ok ⟨r.method, [], [], JsIndexed.coll 0 []⟩ := by
    intro c2 hr2
    simp only [decodeResultFromData, hr2, hf, ho]
  refine ⟨hmain codec hr, ?_⟩
  intro codec2 hagree
  rw [hmain codec hr, hmain codec2 ?_]
  rw [← extract_codec_bytes codec codec2 data abi hagree]
  exact hr

/-- Two same-named entries: the first (`transfer()`, selector `8a4068dd`) has
outputs, the second (`transfer(address,uint256)`, selector `a9059cbb`) has
none. -/
def abiC6 : List AbiEntry :=
  [⟨some "function", some "transfer", none, some [AbiParam.plain none "uint256"]⟩,
   ⟨some "function", some "transfer",
      some [AbiParam.plain (some "to") "address", AbiParam.plain (some "amount") "uint256"],
      none⟩]

/-- Counterexample to C6 as stated: the call data selects the second `abiC6`
entry, which has **no** outputs field, yet the name lookup returns the first
entry (which has outputs), so the decode proceeds and returns a one-element
collection instead of the `{_length: 0}` sentinel. -/
theorem c6_counterexample :
    decodeResultFromData codec0 "0xa9059cbb" "0x00" abiC6 =
      Except.ok ⟨some "transfer", [], ["uint256"], JsIndexed.coll 1 [some 0]⟩ ∧
    (JsIndexed.coll 1 [some 0]).counted = some (1, 1) ∧
    (JsIndexed.coll 0 []).counted = some (0, 0) :=
  ⟨rfl, rfl, rfl⟩

/-- The matched entry of the C6 witness: `transfer(address,uint256)` with no
outputs field. -/
def transferNoOut : AbiEntry :=
  ⟨some "function", some "transfer",
    some [AbiParam.plain (some "to") "address", AbiParam.plain (some "amount") "uint256"],
    none⟩

/-- Witness for C6 (amended) on a single-entry ABI, where the name lookup
finds the matched (output-less) entry itself. -/
theorem c6_no_outputs_short_circuit_witness :
    decodeResultFromData codec0 "0xa9059cbb" "0x00" [transferNoOut] =
      Except.ok ⟨some "transfer", [], [], JsIndexed.coll 0 []⟩ :=
  (c6_no_outputs_short_circuit codec0 "0xa9059cbb" "0x00" [transferNoOut]
    (mkExtractInfo transferNoOut [0, 0]) transferNoOut (by rfl) (by rfl) (by rfl)).1

/-- C9 (amended): for every successful decode, (i) `decodeInputFromData`
returns name and type lists of equal cardinality and a counted value
collection whose `_length` and entry count both equal that cardinality, which
is the input-list length of the matched entry — an ABI entry whose recomputed
selector equals the call-data selector and from which the returned name and
type lists are taken verbatim — unless nothing matched (in which case
everything is empty with a null method); (ii) whenever `decodeResultFromData`
returns a counted collection, its `_length` and entry count equal the
`outputTypes` cardinality.  (On the degraded path the decoded output is a
plain string carrying no count — see the counterexample.) -/
theorem c9_cardinality (codec : Codec) (data encodedResult : String)
    (abi : List AbiEntry) :
    (∀ ri, decodeInputFromData codec data abi = Except.ok ri →
      ri.inputTypes.length = ri.inputNames.length ∧
      ri.decodedInput.counted = some (ri.inputNames.length, ri.inputNames.length) ∧
      ((ri.methodName = none ∧ ri.inputNames = [] ∧ ri.inputTypes = []) ∨
        ∃ e, e ∈ abi ∧ entryHash e = methodIdOf data ∧
          ri.inputNames = entryNamesInput e ∧ ri.inputTypes = entryTypesInput e ∧
          ri.inputNames.length = (e.inputs.getD []).length)) ∧
    (∀ res, decodeResultFromData codec data encodedResult abi = Except.ok res →
      ∀ n vs, res.decodedOutput = JsIndexed.coll n vs →
        n = res.outputTypes.length ∧ vs.length = n) := by
  constructor
  · intro ri hri
    unfold decodeInputFromData at hri
    cases hx : extractInfoFromABI codec data abi with
    | error err => rw [hx] at hri; cases hri
    | ok r =>
      rw [hx] at hri
      injection hri with hri2
      subst hri2
      refine ⟨?_, ?_, ?_⟩
      · rcases extract_ok_cases codec data abi r hx with rfl | ⟨e, he, hm, vs, rfl⟩
        · rfl
        · simp only [mkExtractInfo, entryTypesInput, entryNamesInput, List.length_map]
      · simp only [JsIndexed.counted, List.length_map, List.length_range]
      · rcases extract_ok_cases codec data abi r hx with rfl | ⟨e, he, hm, vs, rfl⟩
        · exact Or.inl ⟨rfl, rfl, rfl⟩
        · exact Or.inr ⟨e, he, hm, rfl, rfl, by
            simp only [mkExtractInfo, entryNamesInput, List.length_map]⟩
  · intro res hres
    unfold decodeResultFromData at hres
    split at hres
    · cases hres
    · split at hres
      · cases hres
      · split at hres
        · injection hres with hres2
          subst hres2
          intro n vs hcoll
          injection hcoll with h1 h2
          subst h1; subst h2
          exact ⟨rfl, rfl⟩
        · split at hres
          · injection hres with hres2
            subst hres2
            intro n vs hcoll
            cases hcoll
          · dsimp only [] at hres
            split at hres
            · injection hres with hres2
              subst hres2
              intro n vs hcoll
              injection hcoll with h1 h2
              subst h1; subst h2
              simp only [List.length_map, List.length_range]
              exact ⟨trivial, trivial⟩
            · cases hres

/-- Counterexample to C9 as stated: on the degraded path (result string
`"61"`, one declared output) the decoded output is the plain string `"a"`,
which is not a counted collection at all, so the value collection does not
have the output-list cardinality. -/
theorem c9_counterexample :
    decodeResultFromData codec0 "0xa9059cbb" "61" [transferEntry] =
      Except.ok ⟨some "transfer", [none], ["uint256"], JsIndexed.plain "a"⟩ ∧
    (JsIndexed.plain "a").counted = none :=
  ⟨rfl, rfl⟩

/-- Concrete successful input decode used by the C9 witness. -/
def riW : InputResponse :=
  ⟨some "transfer", [some "to", some "amount"],
    [JsInput.str "address", JsInput.str "uint256"], JsIndexed.coll 2 [some 0, some 0]⟩

/-- Witness for C9 (amended) at a concrete matched input decode. -/
theorem c9_cardinality_witness :
    riW.inputTypes.length = riW.inputNames.length ∧
    riW.decodedInput.counted = some (riW.inputNames.length, riW.inputNames.length) ∧
    ((riW.methodName = none ∧ riW.inputNames = [] ∧ riW.inputTypes = []) ∨
      ∃ e, e ∈ [transferEntry] ∧ entryHash e = methodIdOf "0xa9059cbb" ∧
        riW.inputNames = entryNamesInput e ∧ riW.inputTypes = entryTypesInput e ∧
        riW.inputNames.length = (e.inputs.getD []).length) :=
  (c9_cardinality codec0 "0xa9059cbb" "" [transferEntry]).1 riW (by rfl)

/-- Witness for C8 at a concrete `SUCCESS` transaction and two different
result strings. -/
theorem c8_non_revert_status_witness :
    decodeRevertMessageFromTransaction ⟨[⟨"SUCCESS"⟩]⟩ "deadbeef" =
      Except.ok ⟨"SUCCESS", ""⟩ ∧
    decodeRevertMessageFromTransaction ⟨[⟨"SUCCESS"⟩]⟩ "deadbeef" =
      decodeRevertMessageFromTransaction ⟨[⟨"SUCCESS"⟩]⟩ "" :=
  c8_non_revert_status ⟨[⟨"SUCCESS"⟩]⟩ "SUCCESS" "deadbeef" "" rfl (by decide)

end TronTxDecoder
